import Mathlib

/-!
Verification of the ledger and commerce engine of the Telegram shop bot in
src/main.py. The database tables and the handlers that mutate balances,
stock, orders, promo usage and reward claims are embedded as pure Lean
functions over an explicit state; randomness (random.choice) and the clock
are passed in as parameters. Money (SQLite REAL) is modelled as Rat, and
times as minutes, with the calendar day of a time t being t / 1440 (the
source stores date.today().isoformat() strings and compares them for
equality, which agrees with equality of day indices). String helpers are
implemented by structural recursion on character lists so that concrete
states evaluate inside the kernel.
-/

set_option maxHeartbeats 1000000
set_option linter.unusedVariables false
set_option allowUnsafeReducibility true

attribute [semireducible] Rat.add Rat.sub Rat.mul Rat.inv Rat.ofScientific

/-- Row of the users table (src/main.py, init_db). -/
structure UserRow where
  user_id : Int
  username : String
  full_name : String
  balance : Rat
  total_spent : Rat
  referrer_id : Option Int
  banned : Bool
deriving DecidableEq

/-- Row of the products table. The source column named type is rendered ptype. -/
structure ProductRow where
  id : Int
  category_id : Int
  ptype : String
  name : String
  description : String
  price : Rat
  content : String
  stock : Int
deriving DecidableEq

/-- Row of the orders table. -/
structure OrderRow where
  user_id : Int
  product_id : Int
  status : String
  data : String
deriving DecidableEq

/-- Row of the tasks table. -/
structure TaskRow where
  id : Int
  description : String
  link : String
  reward : Rat
deriving DecidableEq

/-- Row of the promos table. -/
structure PromoRow where
  code : String
  reward : Rat
  max_usage : Int
  used_count : Int
  expiry_date : String
deriving DecidableEq

/-- Row of the transactions table; kind models the source column named type. -/
structure TxnRow where
  user_id : Int
  amount : Rat
  kind : String
  description : String
deriving DecidableEq

/-- The settings rows that the ledger operations read (their defaults are
written by init_db). The source stores strings: enabled flags are the string
1 and numeric settings are parsed with float; they are modelled here with
typed fields, except scratch_rewards whose raw string is parsed by
scratch_card itself. -/
structure Settings where
  referral_reward : Rat
  daily_bonus_enabled : Bool
  daily_bonus_amount : Rat
  scratch_enabled : Bool
  scratch_rewards : String
deriving DecidableEq

/-- The mutable database state that the claims range over. Claim timestamps
are day indices (see the header comment). -/
structure St where
  settings : Settings
  users : List UserRow
  products : List ProductRow
  orders : List OrderRow
  tasks : List TaskRow
  completed_tasks : List (Int × Int)
  promos : List PromoRow
  promo_usage : List (Int × String)
  transactions : List TxnRow
  daily_bonus_claims : List (Int × Nat)
  daily_scratch_claims : List (Int × Nat)
deriving DecidableEq

/-- Outcomes reported by the handlers. The constructor nameErrorUser is the
Python NameError raised by process_purchase on its unbound name user, and
typeErrorNoneUser the TypeError raised by buy_product when indexing a None
user row. The constructor bannedUser belongs to the error taxonomy of the
spec and is produced by no purchase code path. -/
inductive Err
  | invalidCode
  | codeExpired
  | limitReached
  | alreadyUsed
  | alreadyClaimed
  | featureDisabled
  | noScratchRewards
  | productNotFound
  | outOfStock
  | insufficientBalance
  | taskNotFound
  | taskAlreadyDone
  | nameErrorUser
  | typeErrorNoneUser
  | bannedUser
deriving DecidableEq

/-- SELECT * FROM users WHERE user_id = ? (get_user). -/
def getUser (s : St) (uid : Int) : Option UserRow :=
  s.users.find? (fun u => u.user_id == uid)

/-- SELECT * FROM products WHERE id = ?. -/
def findProduct (s : St) (pid : Int) : Option ProductRow :=
  s.products.find? (fun p => p.id == pid)

/-- UPDATE users SET balance = balance + a WHERE user_id = uid. -/
def creditBalance (us : List UserRow) (uid : Int) (a : Rat) : List UserRow :=
  us.map (fun u => if u.user_id == uid then { u with balance := u.balance + a } else u)

/-- The whitespace characters Python str.strip removes by default. -/
def pyWhitespace (c : Char) : Bool :=
  c == ' ' || c == '\t' || c == '\n' || c == '\r' || c == '\x0b' || c == '\x0c'

/-- Python str.strip. -/
def pyStrip (s : String) : String :=
  ⟨((s.toList.dropWhile pyWhitespace).reverse.dropWhile pyWhitespace).reverse⟩

/-- Python str.split on a single comma, over character lists. -/
def splitCommaAux : List Char → List Char → List (List Char)
  | [], acc => [acc.reverse]
  | c :: rest, acc =>
      if c == ',' then acc.reverse :: splitCommaAux rest []
      else splitCommaAux rest (c :: acc)

/-- Python s.split on commas. -/
def splitComma (s : String) : List String :=
  (splitCommaAux s.toList []).map (fun l => ⟨l⟩)

/-- Lexicographic comparison of character lists by code point, the order
Python and SQLite use for the ISO date strings compared by the promo expiry
check. -/
def strLtb : List Char → List Char → Bool
  | [], [] => false
  | [], _ :: _ => true
  | _ :: _, [] => false
  | a :: as, b :: bs =>
      if a.val < b.val then true
      else if b.val < a.val then false
      else strLtb as bs

/-- Python string less-than on the embedded strings. -/
def pyStrLt (a b : String) : Bool := strLtb a.toList b.toList

/-- Numeric value of a digit string. -/
def digitsVal (l : List Char) : Nat :=
  l.foldl (fun a c => a * 10 + (c.toNat - 48)) 0

/-- Model of Python float(s) on already stripped tokens: an optional sign,
then decimal digits with at most one dot and at least one digit; every other
token raises ValueError, rendered none. -/
def pythonFloat (s : String) : Option Rat :=
  let cs := s.toList
  let signed : Rat × List Char :=
    match cs with
    | '-' :: r => (-1, r)
    | '+' :: r => (1, r)
    | r => (1, r)
  let sign := signed.1
  let body := signed.2
  let ip := body.takeWhile Char.isDigit
  let rest := body.drop ip.length
  match rest with
  | [] => if ip.isEmpty then none else some (sign * (digitsVal ip : Rat))
  | '.' :: fp =>
      if fp.all Char.isDigit && !(ip.isEmpty && fp.isEmpty) then
        some (sign * ((digitsVal ip : Rat) + (digitsVal fp : Rat) / ((10 : Rat) ^ fp.length)))
      else none
  | _ => none

/-- The comprehension in scratch_card: split the setting on commas, strip,
drop empty tokens, parse each with float; none when float raises. -/
def parseScratchRewards (raw : String) : Option (List Rat) :=
  (((splitComma raw).map pyStrip).filter (fun x => x != "")).mapM pythonFloat

/-- INSERT OR REPLACE for the two claim tables keyed on user_id. -/
def upsertDay (l : List (Int × Nat)) (uid : Int) (d : Nat) : List (Int × Nat) :=
  if (l.find? (fun p => p.1 == uid)).isSome then
    l.map (fun p => if p.1 == uid then (uid, d) else p)
  else l ++ [(uid, d)]

/-- Calendar day index of a time in minutes. -/
def dayOf (t : Nat) : Nat := t / 1440

/-- add_user. If the user already exists the function returns before any
write. The referral branch is guarded by Python truthiness, which is false
for None and for 0, covered by the r == 0 test. -/
def add_user (uid : Int) (username full_name : String) (referrer_id : Option Int)
    (s : St) : St :=
  if (getUser s uid).isSome then s
  else
    let s1 : St := { s with
      users := s.users ++ [⟨uid, username, full_name, 0, 0, referrer_id, false⟩] }
    match referrer_id with
    | none => s1
    | some r =>
        if r == 0 then s1
        else
          let reward := s.settings.referral_reward
          { s1 with
              users := creditBalance s1.users r reward,
              transactions := s1.transactions ++
                [⟨r, reward, "referral", "Referral bonus from " ++ full_name⟩] }

/-- cmd_start. The argument of the /start deep link passes isdigit, hence a
Nat; it becomes the referrer only when it differs from the caller and names
an existing user. -/
def cmd_start (uid : Int) (username full_name : String) (arg : Option Nat)
    (s : St) : St :=
  let referrer_id : Option Int :=
    match arg with
    | some ref =>
        if ((ref : Int) != uid) && (getUser s (ref : Int)).isSome then some (ref : Int)
        else none
    | none => none
  add_user uid username full_name referrer_id s

/-- The SELECT and comparison that open daily_bonus: the stored last_claim
equals the current date. -/
def dailyClaimedToday (s : St) (uid : Int) (t : Nat) : Bool :=
  match s.daily_bonus_claims.find? (fun p => p.1 == uid) with
  | some p => p.2 == dayOf t
  | none => false

/-- daily_bonus handler; t is the current time in minutes. -/
def daily_bonus (uid : Int) (t : Nat) (s : St) : St × Except Err Rat :=
  if !s.settings.daily_bonus_enabled then (s, .error .featureDisabled)
  else if dailyClaimedToday s uid t then (s, .error .alreadyClaimed)
  else
    let amount := s.settings.daily_bonus_amount
    ({ s with
        users := creditBalance s.users uid amount,
        daily_bonus_claims := upsertDay s.daily_bonus_claims uid (dayOf t),
        transactions := s.transactions ++ [⟨uid, amount, "daily_bonus", "Daily bonus"⟩] },
      .ok amount)

/-- The SELECT and comparison that open scratch_card. -/
def scratchClaimedToday (s : St) (uid : Int) (t : Nat) : Bool :=
  match s.daily_scratch_claims.find? (fun p => p.1 == uid) with
  | some p => p.2 == dayOf t
  | none => false

/-- scratch_card handler; t is the current time in minutes and k resolves
random.choice, every index modulo the list length being drawable. -/
def scratch_card (uid : Int) (t : Nat) (k : Nat) (s : St) : St × Except Err Rat :=
  if !s.settings.scratch_enabled then (s, .error .featureDisabled)
  else if scratchClaimedToday s uid t then (s, .error .alreadyClaimed)
  else
    let rewards := match parseScratchRewards s.settings.scratch_rewards with
      | some rs => rs
      | none => [5, 10, 15, 20, 25]
    if rewards.isEmpty then (s, .error .noScratchRewards)
    else
      let amount := rewards.getD (k % rewards.length) 0
      ({ s with
          users := creditBalance s.users uid amount,
          daily_scratch_claims := upsertDay s.daily_scratch_claims uid (dayOf t),
          transactions := s.transactions ++ [⟨uid, amount, "scratch", "Daily scratch card"⟩] },
        .ok amount)

/-- do_task callback handler. -/
def do_task (uid : Int) (task_id : Int) (s : St) : St × Except Err Rat :=
  match s.tasks.find? (fun tk => tk.id == task_id) with
  | none => (s, .error .taskNotFound)
  | some task =>
      if (s.completed_tasks.find? (fun c => c.1 == uid && c.2 == task_id)).isSome then
        (s, .error .taskAlreadyDone)
      else
        ({ s with
            completed_tasks := s.completed_tasks ++ [(uid, task_id)],
            users := creditBalance s.users uid task.reward,
            transactions := s.transactions ++ [⟨uid, task.reward, "task", task.description⟩] },
          .ok task.reward)

/-- redeem_promo_process. today is the strftime image of the current date;
ISO date strings compare lexicographically exactly as the source compares
them. An empty expiry_date is falsy in Python and skips the expiry check. -/
def redeem_promo_process (uid : Int) (raw today : String) (s : St) :
    St × Except Err Rat :=
  let code := pyStrip raw
  match s.promos.find? (fun p => p.code == code) with
  | none => (s, .error .invalidCode)
  | some promo =>
      if promo.expiry_date != "" && pyStrLt promo.expiry_date today then
        (s, .error .codeExpired)
      else if (promo.max_usage != -1) && (promo.max_usage ≤ promo.used_count) then
        (s, .error .limitReached)
      else if (s.promo_usage.find? (fun q => q.1 == uid && q.2 == code)).isSome then
        (s, .error .alreadyUsed)
      else
        ({ s with
            users := creditBalance s.users uid promo.reward,
            promos := s.promos.map (fun p =>
              if p.code == code then { p with used_count := p.used_count + 1 } else p),
            promo_usage := s.promo_usage ++ [(uid, code)],
            transactions := s.transactions ++
              [⟨uid, promo.reward, "promo", "Promo code " ++ code⟩] },
          .ok promo.reward)

/-- process_purchase. The first statement of its body reads the name user,
which is not among its parameters and is bound nowhere in enclosing scope,
so every call raises NameError before the database connection is even
opened: the state is returned unchanged, with no debit, no stock change, no
order row and no transaction row. -/
def process_purchase (user_id : Int) (prod : ProductRow) (address : Option String)
    (s : St) : St × Except Err Unit :=
  (s, .error .nameErrorUser)

/-- The statements of process_purchase as they would execute were the name
user bound to the given row. No call site reaches them (see
process_purchase); they are embedded to examine the writes the NameError
prevents, in particular the stock sentinel guard new_stock != -1. -/
def process_purchase_body (user_id : Int) (user : UserRow) (prod : ProductRow)
    (address : Option String) (s : St) : St :=
  let new_balance := user.balance - prod.price
  let new_stock : Int := if prod.stock != -1 then prod.stock - 1 else -1
  let s1 : St := { s with users := s.users.map (fun u =>
      if u.user_id == user_id then
        { u with balance := new_balance, total_spent := u.total_spent + prod.price }
      else u) }
  let s2 : St :=
    if new_stock != -1 then
      { s1 with products := s1.products.map (fun p =>
          if p.id == prod.id then { p with stock := new_stock } else p) }
    else s1
  let status : String :=
    if prod.ptype == "digital" || prod.ptype == "file" then "delivered" else "pending"
  let order_data : String :=
    if status == "delivered" then prod.content
    else match address with
      | some a => if a == "" then "Waiting for manual processing" else a
      | none => "Waiting for manual processing"
  { s2 with
      orders := s2.orders ++ [⟨user_id, prod.id, status, order_data⟩],
      transactions := s2.transactions ++
        [⟨user_id, -prod.price, "purchase", "Bought " ++ prod.name⟩] }

deriving instance DecidableEq for Except

/-- What a buy callback has produced when it returns. -/
inductive BuyOutcome
  | purchased
  | awaitingAddress
deriving DecidableEq

/-- buy_product callback handler. A missing user row raises TypeError at the
balance comparison (user is None); a physical product defers to the address
prompt with no mutation; the remaining types call process_purchase. -/
def buy_product (uid : Int) (prod_id : Int) (s : St) : St × Except Err BuyOutcome :=
  match findProduct s prod_id with
  | none => (s, .error .productNotFound)
  | some prod =>
      if (prod.stock != -1) && (prod.stock ≤ 0) then (s, .error .outOfStock)
      else
        match getUser s uid with
        | none => (s, .error .typeErrorNoneUser)
        | some user =>
            if user.balance < prod.price then (s, .error .insufficientBalance)
            else if prod.ptype == "physical" then (s, .ok .awaitingAddress)
            else
              let r := process_purchase uid prod none s
              (r.1, r.2.map (fun _ => BuyOutcome.purchased))

/-- receive_address: refetch product and user, then call process_purchase,
whose NameError fires before prod is touched (the unbound name user is read
first), so a missing product row changes nothing about the outcome. -/
def receive_address (uid : Int) (prod_id : Int) (address : String) (s : St) :
    St × Except Err Unit :=
  match findProduct s prod_id with
  | some prod => process_purchase uid prod (some address) s
  | none => (s, .error .nameErrorUser)

/-- admin_give_balance_process: adjusts the balance directly and inserts no
transactions row. -/
def admin_give_balance_process (target : Int) (amount : Rat) (s : St) : St :=
  { s with users := creditBalance s.users target amount }

/-- The committed operations named by the ledger claims, with clock and
randomness resolved by parameters. -/
inductive Op
  | start (uid : Int) (username full_name : String) (arg : Option Nat)
  | daily (uid : Int) (t : Nat)
  | scratch (uid : Int) (t : Nat) (k : Nat)
  | task (uid : Int) (task_id : Int)
  | promo (uid : Int) (raw today : String)
  | buy (uid : Int) (prod_id : Int)
  | sendAddress (uid : Int) (prod_id : Int) (address : String)
  | adminAdjust (uid : Int) (amount : Rat)
deriving DecidableEq

/-- The state an operation leaves behind (handlers that report an error
leave the state they were given). -/
def applyOp (s : St) : Op → St
  | .start uid un fn arg => cmd_start uid un fn arg s
  | .daily uid t => (daily_bonus uid t s).1
  | .scratch uid t k => (scratch_card uid t k s).1
  | .task uid tid => (do_task uid tid s).1
  | .promo uid raw today => (redeem_promo_process uid raw today s).1
  | .buy uid pid => (buy_product uid pid s).1
  | .sendAddress uid pid a => (receive_address uid pid a s).1
  | .adminAdjust uid amt => admin_give_balance_process uid amt s

def applyOps (s : St) (ops : List Op) : St := ops.foldl applyOp s

/-- An operation acting on an account: the reward handlers act for a
registered user, and the administrative balance adjustment is excluded. -/
def opSafe (s : St) : Op → Bool
  | .daily uid _ => (getUser s uid).isSome
  | .scratch uid _ _ => (getUser s uid).isSome
  | .task uid _ => (getUser s uid).isSome
  | .promo uid _ _ => (getUser s uid).isSome
  | .adminAdjust _ _ => false
  | _ => true

/-- Every operation of the trace is safe in the state where it runs. -/
def safeTrace : St → List Op → Bool
  | _, [] => true
  | s, op :: rest => opSafe s op && safeTrace (applyOp s op) rest

/-- Sum of the transaction amounts recorded for an account. -/
def txnSum (ts : List TxnRow) (uid : Int) : Rat :=
  ((ts.filter (fun tx => tx.user_id == uid)).map (fun tx => tx.amount)).sum

/-- The balance invariant of the spec: every account balance is the sum of
the transactions recorded for it. -/
def BalInv (s : St) : Prop :=
  ∀ u ∈ s.users, u.balance = txnSum s.transactions u.user_id

/-- Every transaction row names a registered account. -/
def TxnReg (s : St) : Prop :=
  ∀ tx ∈ s.transactions, (getUser s tx.user_id).isSome = true

/-- The inductive strengthening of the balance invariant. -/
def LedgerInv (s : St) : Prop := BalInv s ∧ TxnReg s

instance (s : St) : Decidable (BalInv s) :=
  inferInstanceAs (Decidable (∀ u ∈ s.users, u.balance = txnSum s.transactions u.user_id))

instance (s : St) : Decidable (TxnReg s) :=
  inferInstanceAs (Decidable (∀ tx ∈ s.transactions, (getUser s tx.user_id).isSome = true))

instance (s : St) : Decidable (LedgerInv s) :=
  inferInstanceAs (Decidable (BalInv s ∧ TxnReg s))

/-- The settings defaults written by init_db. -/
def stdSettings : Settings :=
  { referral_reward := 5
    daily_bonus_enabled := true
    daily_bonus_amount := 10
    scratch_enabled := true
    scratch_rewards := "5,10,15,20,25" }

theorem creditBalance_pred (uid x : Int) (a : Rat) :
    ((fun u => u.user_id == x) ∘
        (fun u => if u.user_id == uid then { u with balance := u.balance + a } else u))
      = (fun u : UserRow => u.user_id == x) := by
  funext u
  by_cases h : u.user_id == uid
  · have huid : u.user_id = uid := by simpa using h
    simp [huid]
  · have huid : ¬ u.user_id = uid := by simpa using h
    simp [huid]

theorem find?_creditBalance_isSome (us : List UserRow) (uid x : Int) (a : Rat) :
    ((creditBalance us uid a).find? (fun u => u.user_id == x)).isSome
      = (us.find? (fun u => u.user_id == x)).isSome := by
  unfold creditBalance
  rw [List.find?_map, creditBalance_pred uid x a]
  cases us.find? (fun u => u.user_id == x) <;> rfl

theorem find?_creditBalance_self (us : List UserRow) (uid : Int) (a : Rat) (u : UserRow)
    (h : us.find? (fun v => v.user_id == uid) = some u) :
    (creditBalance us uid a).find? (fun v => v.user_id == uid)
      = some { u with balance := u.balance + a } := by
  unfold creditBalance
  rw [List.find?_map, creditBalance_pred uid uid a, h]
  have hp := List.find?_some h
  have hp2 : u.user_id = uid := by simpa using hp
  simp [hp2]

theorem txnSum_append (ts : List TxnRow) (tx : TxnRow) (x : Int) :
    txnSum (ts ++ [tx]) x = txnSum ts x + (if tx.user_id = x then tx.amount else 0) := by
  unfold txnSum
  rw [List.filter_append, List.map_append, List.sum_append]
  by_cases h : tx.user_id = x
  · have hb : (tx.user_id == x) = true := by simpa using h
    simp [List.filter, hb, h]
  · have hb : (tx.user_id == x) = false := by simpa using h
    simp [List.filter, hb, h]

theorem txnSum_eq_zero (ts : List TxnRow) (x : Int)
    (h : ∀ tx ∈ ts, ¬ tx.user_id = x) : txnSum ts x = 0 := by
  unfold txnSum
  have hnil : ts.filter (fun tx => tx.user_id == x) = [] := by
    rw [List.filter_eq_nil_iff]
    intro tx htx
    simpa using h tx htx
  rw [hnil]
  rfl

theorem find?_isSome_append_left {α : Type} {l₁ l₂ : List α} {p : α → Bool}
    (h : (l₁.find? p).isSome = true) :
    ((l₁ ++ l₂).find? p).isSome = true := by
  rw [List.find?_append]
  cases hf : l₁.find? p with
  | none => rw [hf] at h; simp at h
  | some a => simp [Option.or]

theorem LedgerInv_credit (s s' : St) (uid : Int) (a : Rat) (k d : String)
    (hu : s'.users = creditBalance s.users uid a)
    (ht : s'.transactions = s.transactions ++ [⟨uid, a, k, d⟩])
    (hreg : (getUser s uid).isSome = true)
    (hI : LedgerInv s) : LedgerInv s' := by
  obtain ⟨hB, hT⟩ := hI
  constructor
  · intro u' hu'
    rw [hu] at hu'
    unfold creditBalance at hu'
    obtain ⟨u, hmem, rfl⟩ := List.mem_map.mp hu'
    rw [ht, txnSum_append]
    by_cases h : u.user_id == uid
    · have huid : u.user_id = uid := by simpa using h
      simp only [h, if_true]
      simp [huid, hB u hmem]
    · have huid : ¬ uid = u.user_id := by
        intro heq
        exact absurd (by simpa using heq.symm) h
      simp only [h, if_false]
      simp [huid, hB u hmem]
  · intro tx htx
    rw [ht] at htx
    rcases List.mem_append.mp htx with hmem | hmem
    · have hold := hT tx hmem
      unfold getUser at hold ⊢
      rw [hu, find?_creditBalance_isSome]
      exact hold
    · have : tx = ⟨uid, a, k, d⟩ := by simpa using hmem
      rw [this]
      unfold getUser at hreg ⊢
      rw [hu, find?_creditBalance_isSome]
      exact hreg

theorem LedgerInv_append_user (s s' : St) (w : UserRow)
    (hu : s'.users = s.users ++ [w])
    (ht : s'.transactions = s.transactions)
    (hbal : w.balance = 0)
    (hnew : getUser s w.user_id = none)
    (hI : LedgerInv s) : LedgerInv s' := by
  obtain ⟨hB, hT⟩ := hI
  constructor
  · intro u hu'
    rw [hu] at hu'
    rw [ht]
    rcases List.mem_append.mp hu' with h | h
    · exact hB u h
    · have hw : u = w := by simpa using h
      rw [hw, hbal]
      symm
      apply txnSum_eq_zero
      intro tx htx heq
      have hreg := hT tx htx
      unfold getUser at hreg hnew
      rw [heq, hnew] at hreg
      simp at hreg
  · intro tx htx
    rw [ht] at htx
    have hreg := hT tx htx
    unfold getUser at hreg ⊢
    rw [hu]
    exact find?_isSome_append_left hreg

theorem LedgerInv_add_user (uid : Int) (un fn : String) (rid : Option Int) (s : St)
    (hI : LedgerInv s)
    (hr : ∀ r, rid = some r → (r == 0) = false → (getUser s r).isSome = true) :
    LedgerInv (add_user uid un fn rid s) := by
  unfold add_user
  by_cases hex : (getUser s uid).isSome
  · simp only [hex, if_true]
    exact hI
  · simp only [hex, if_false]
    have hnone : getUser s uid = none := by
      cases hg : getUser s uid
      · rfl
      · rw [hg] at hex; simp at hex
    have hI1 : LedgerInv { s with
        users := s.users ++ [⟨uid, un, fn, 0, 0, rid, false⟩] } :=
      LedgerInv_append_user s _ ⟨uid, un, fn, 0, 0, rid, false⟩ rfl rfl rfl hnone hI
    cases rid with
    | none => exact hI1
    | some r =>
        by_cases hr0 : r == 0
        · simp only [hr0, if_true]
          exact hI1
        · simp only [hr0, if_false]
          apply LedgerInv_credit { s with
              users := s.users ++ [⟨uid, un, fn, 0, 0, some r, false⟩] }
            _ r s.settings.referral_reward "referral" ("Referral bonus from " ++ fn)
            rfl rfl ?_ hI1
          have hrs : (getUser s r).isSome = true := by
            apply hr r rfl
            cases hb : (r == 0)
            · rfl
            · rw [hb] at hr0; exact absurd rfl hr0
          unfold getUser at hrs ⊢
          exact find?_isSome_append_left hrs

theorem LedgerInv_cmd_start (uid : Int) (un fn : String) (arg : Option Nat) (s : St)
    (hI : LedgerInv s) : LedgerInv (cmd_start uid un fn arg s) := by
  unfold cmd_start
  apply LedgerInv_add_user uid un fn _ s hI
  intro r hrr hr0
  cases arg with
  | none => simp at hrr
  | some ref =>
      simp only at hrr
      by_cases hc : (((ref : Int) != uid) && (getUser s (ref : Int)).isSome) = true
      · rw [if_pos hc] at hrr
        have hre : (ref : Int) = r := by simpa using hrr
        have hc2 : ((ref : Int) != uid) = true ∧ (getUser s (ref : Int)).isSome = true := by
          simpa using hc
        rw [hre] at hc2
        exact hc2.2
      · rw [if_neg hc] at hrr
        simp at hrr

theorem LedgerInv_daily (uid : Int) (t : Nat) (s : St)
    (hreg : (getUser s uid).isSome = true) (hI : LedgerInv s) :
    LedgerInv (daily_bonus uid t s).1 := by
  unfold daily_bonus
  cases hen : s.settings.daily_bonus_enabled with
  | false => simpa using hI
  | true =>
      simp only [hen, Bool.not_true, Bool.false_eq_true, if_false]
      by_cases hcl : dailyClaimedToday s uid t
      · simpa [hcl] using hI
      · simp only [hcl, if_false]
        exact LedgerInv_credit s _ uid s.settings.daily_bonus_amount
          "daily_bonus" "Daily bonus" rfl rfl hreg hI

theorem LedgerInv_scratch (uid : Int) (t k : Nat) (s : St)
    (hreg : (getUser s uid).isSome = true) (hI : LedgerInv s) :
    LedgerInv (scratch_card uid t k s).1 := by
  unfold scratch_card
  cases hen : s.settings.scratch_enabled with
  | false => simpa using hI
  | true =>
      simp only [hen, Bool.not_true, Bool.false_eq_true, if_false]
      by_cases hcl : scratchClaimedToday s uid t
      · simpa [hcl] using hI
      · simp only [hcl, if_false]
        by_cases hemp : (match parseScratchRewards s.settings.scratch_rewards with
          | some rs => rs
          | none => [5, 10, 15, 20, 25]).isEmpty
        · simpa [hemp] using hI
        · simp only [hemp, if_false]
          exact LedgerInv_credit s _ uid _ "scratch" "Daily scratch card" rfl rfl hreg hI

theorem LedgerInv_task (uid : Int) (tid : Int) (s : St)
    (hreg : (getUser s uid).isSome = true) (hI : LedgerInv s) :
    LedgerInv (do_task uid tid s).1 := by
  unfold do_task
  cases hf : s.tasks.find? (fun tk => tk.id == tid) with
  | none => simpa using hI
  | some task =>
      simp only
      by_cases hdone : (s.completed_tasks.find? (fun c => c.1 == uid && c.2 == tid)).isSome
      · simpa [hdone] using hI
      · simp only [hdone, if_false]
        exact LedgerInv_credit s _ uid task.reward "task" task.description rfl rfl hreg hI

theorem LedgerInv_promo (uid : Int) (raw today : String) (s : St)
    (hreg : (getUser s uid).isSome = true) (hI : LedgerInv s) :
    LedgerInv (redeem_promo_process uid raw today s).1 := by
  unfold redeem_promo_process
  dsimp only
  split
  · exact hI
  · rename_i promo heq
    split
    · exact hI
    · split
      · exact hI
      · split
        · exact hI
        · exact LedgerInv_credit s _ uid promo.reward "promo"
            ("Promo code " ++ pyStrip raw) rfl rfl hreg hI

theorem buy_product_fst (uid pid : Int) (s : St) : (buy_product uid pid s).1 = s := by
  unfold buy_product process_purchase
  cases hf : findProduct s pid with
  | none => rfl
  | some prod =>
      simp only
      by_cases h1 : ((prod.stock != -1) && decide (prod.stock ≤ 0)) = true
      · simp [h1]
      · simp only [h1, if_false]
        cases hu : getUser s uid with
        | none => rfl
        | some user =>
            simp only
            by_cases h2 : user.balance < prod.price
            · simp [h2]
            · simp only [h2, if_false]
              by_cases h3 : (prod.ptype == "physical") = true
              · simp [h3]
              · simp [h3]

theorem receive_address_fst (uid pid : Int) (a : String) (s : St) :
    (receive_address uid pid a s).1 = s := by
  unfold receive_address process_purchase
  cases hf : findProduct s pid <;> rfl

theorem LedgerInv_step (s : St) (op : Op) (hs : opSafe s op = true) (hI : LedgerInv s) :
    LedgerInv (applyOp s op) := by
  cases op with
  | start uid un fn arg => exact LedgerInv_cmd_start uid un fn arg s hI
  | daily uid t => exact LedgerInv_daily uid t s (by simpa [opSafe] using hs) hI
  | scratch uid t k => exact LedgerInv_scratch uid t k s (by simpa [opSafe] using hs) hI
  | task uid tid => exact LedgerInv_task uid tid s (by simpa [opSafe] using hs) hI
  | promo uid raw today => exact LedgerInv_promo uid raw today s (by simpa [opSafe] using hs) hI
  | buy uid pid =>
      show LedgerInv (buy_product uid pid s).1
      rw [buy_product_fst]
      exact hI
  | sendAddress uid pid a =>
      show LedgerInv (receive_address uid pid a s).1
      rw [receive_address_fst]
      exact hI
  | adminAdjust uid amt => simp [opSafe] at hs

theorem LedgerInv_trace (ops : List Op) : ∀ s : St, LedgerInv s → safeTrace s ops = true →
    LedgerInv (applyOps s ops) := by
  induction ops with
  | nil => intro s hI _; exact hI
  | cons op rest ih =>
      intro s hI hsafe
      have hsafe2 : opSafe s op = true ∧ safeTrace (applyOp s op) rest = true := by
        have : (opSafe s op && safeTrace (applyOp s op) rest) = true := hsafe
        simpa using this
      show LedgerInv (applyOps (applyOp s op) rest)
      exact ih (applyOp s op) (LedgerInv_step s op hsafe2.1 hI) hsafe2.2

def stC1 : St :=
  ⟨stdSettings, [⟨7, "b", "Bob", 0, 0, none, false⟩], [], [], [], [], [], [], [], [], []⟩

/-- Claim C1, counterexample: from a state satisfying the balance invariant
(one registered account, balance 0, no transactions), the admin balance
adjustment operation of the claim list credits 5 with no transaction row, so
afterwards the balance no longer equals the transaction sum. -/
theorem admin_adjust_breaks_balance_invariant :
    LedgerInv stC1 ∧ ¬ BalInv (applyOps stC1 [Op.adminAdjust 7 5]) := by decide

/-- Claim C1 as amended: for every account, after any sequence of committed
operations drawn from referral-crediting signup, daily bonus, scratch, task
completion, promo redemption and purchase — each reward operation acting for
a registered account — the balance of every account equals the sum of the
amounts of its transaction rows; the administrative balance adjustment is
excluded because it records no transaction row. -/
theorem balance_invariant_without_admin_adjust (s : St) (ops : List Op)
    (hI : LedgerInv s) (hsafe : safeTrace s ops = true) :
    ∀ u ∈ (applyOps s ops).users,
      u.balance = txnSum (applyOps s ops).transactions u.user_id :=
  (LedgerInv_trace ops s hI hsafe).1

def stW1 : St :=
  ⟨stdSettings, [⟨7, "b", "Bob", 0, 0, none, false⟩], [], [], [], [],
    [⟨"W5", 5, 1, 0, ""⟩], [], [], [], []⟩

def opsW1 : List Op :=
  [Op.daily 7 100, Op.promo 7 "W5" "2024-06-01", Op.start 9 "c" "Carol" (some 7),
    Op.buy 7 1, Op.scratch 7 200 3]

/-- Witness for the amended claim C1 at a concrete state and trace. -/
theorem balance_invariant_without_admin_adjust_witness :
    LedgerInv stW1 ∧ safeTrace stW1 opsW1 = true ∧
      ∀ u ∈ (applyOps stW1 opsW1).users,
        u.balance = txnSum (applyOps stW1 opsW1).transactions u.user_id :=
  ⟨by decide, by decide,
    balance_invariant_without_admin_adjust stW1 opsW1 (by decide) (by decide)⟩

def stC2 : St :=
  ⟨stdSettings, [⟨1, "a", "Alice", 10, 0, none, false⟩],
    [⟨1, 1, "digital", "Gift", "a gift", 10, "CODE", 1⟩], [], [], [], [], [], [], [], []⟩

/-- Claim C2, evaluation at the failing input: with balance 10, price 10 and
stock 1, the buy callback passes every check and then dies in
process_purchase on the unbound name user; the state is unchanged — the
balance stays 10, the stock stays 1, no order and no transaction appear —
and a second attempt fails identically instead of failing OutOfStock. -/
theorem purchase_attempt_raises_at_failing_input :
    findProduct stC2 1 = some ⟨1, 1, "digital", "Gift", "a gift", 10, "CODE", 1⟩
    ∧ getUser stC2 1 = some ⟨1, "a", "Alice", 10, 0, none, false⟩
    ∧ buy_product 1 1 stC2 = (stC2, .error .nameErrorUser)
    ∧ buy_product 1 1 (buy_product 1 1 stC2).1 = (stC2, .error .nameErrorUser) := by
  decide

/-- Claim C3: every invocation of process_purchase raises on the unbound
name user before issuing any database statement, leaving the state
untouched — no balance debit, no stock decrement, no order row, no
transaction row — so no purchase path ever commits: receive_address
propagates the same error unchanged, and buy_product never mutates the
state nor returns a completed purchase. -/
theorem process_purchase_always_errors_no_mutation (uid pid : Int) (prod : ProductRow)
    (addr : Option String) (addr2 : String) (s : St) :
    process_purchase uid prod addr s = (s, .error .nameErrorUser)
    ∧ receive_address uid pid addr2 s = (s, .error .nameErrorUser)
    ∧ (buy_product uid pid s).1 = s
    ∧ (buy_product uid pid s).2 ≠ .ok .purchased := by
  refine ⟨rfl, ?_, buy_product_fst uid pid s, ?_⟩
  · unfold receive_address process_purchase
    cases findProduct s pid <;> rfl
  · unfold buy_product process_purchase
    cases findProduct s pid with
    | none => simp
    | some prod2 =>
        dsimp only
        split
        · simp
        · cases getUser s uid with
          | none => simp
          | some user =>
              dsimp only
              split
              · simp
              · split
                · simp
                · simp [Except.map]

/-- Claim C9: a product whose stock is the sentinel -1 never has its stock
mutated by a purchase: the reachable purchase paths leave the products table
untouched, and even the post-NameError statements of process_purchase skip
the stock update when new_stock is -1. -/
theorem unbounded_stock_never_mutated (s : St) (uid pid : Int) (addr : String)
    (user : UserRow) (prod : ProductRow) (addr2 : Option String)
    (hstock : prod.stock = -1) :
    ((buy_product uid pid s).1).products = s.products
    ∧ ((receive_address uid pid addr s).1).products = s.products
    ∧ (process_purchase_body uid user prod addr2 s).products = s.products := by
  refine ⟨by rw [buy_product_fst], by rw [receive_address_fst], ?_⟩
  unfold process_purchase_body
  dsimp only
  rw [hstock]
  simp

def stW9 : St :=
  ⟨stdSettings, [⟨1, "a", "Alice", 10, 0, none, false⟩],
    [⟨1, 1, "digital", "Gift", "a gift", 10, "CODE", -1⟩], [], [], [], [], [], [], [], []⟩

/-- Witness for claim C9 at a concrete unbounded-stock product. -/
theorem unbounded_stock_never_mutated_witness :
    ((buy_product 1 1 stW9).1).products = stW9.products
    ∧ ((receive_address 1 1 "addr" stW9).1).products = stW9.products
    ∧ (process_purchase_body 1 ⟨1, "a", "Alice", 10, 0, none, false⟩
        ⟨1, 1, "digital", "Gift", "a gift", 10, "CODE", -1⟩ none stW9).products
        = stW9.products :=
  unbounded_stock_never_mutated stW9 1 1 "addr" ⟨1, "a", "Alice", 10, 0, none, false⟩
    ⟨1, 1, "digital", "Gift", "a gift", 10, "CODE", -1⟩ none rfl

theorem find?_map_upd (uid : Int) (d : Nat) : ∀ l : List (Int × Nat),
    (l.find? (fun p => p.1 == uid)).isSome = true →
    (l.map (fun p => if p.1 == uid then (uid, d) else p)).find? (fun p => p.1 == uid)
      = some (uid, d) := by
  intro l
  induction l with
  | nil => intro h; simp at h
  | cons p rest ih =>
      intro h
      by_cases hp : (p.1 == uid) = true
      · have hp2 : p.1 = uid := by simpa using hp
        simp [hp2]
      · have hb : (p.1 == uid) = false := by simpa using hp
        simp only [List.map_cons, hb, Bool.false_eq_true, if_false]
        rw [List.find?_cons_of_neg]
        · apply ih
          rw [List.find?_cons_of_neg] at h
          · exact h
          · simp [hb]
        · simp [hb]

theorem find?_upsertDay (l : List (Int × Nat)) (uid : Int) (d : Nat) :
    (upsertDay l uid d).find? (fun p => p.1 == uid) = some (uid, d) := by
  unfold upsertDay
  by_cases h : (l.find? (fun p => p.1 == uid)).isSome = true
  · simp only [h, if_true]
    exact find?_map_upd uid d l h
  · have hnone : l.find? (fun p => p.1 == uid) = none := by
      cases hf : l.find? (fun p => p.1 == uid)
      · rfl
      · rw [hf] at h; simp at h
    simp only [hnone, Option.isSome_none, Bool.false_eq_true, if_false]
    rw [List.find?_append, hnone]
    simp

theorem dayOf_lt_of_next (t1 t2 : Nat) (h : 1440 + t1 ≤ t2) : dayOf t1 < dayOf t2 := by
  unfold dayOf
  have h1 : (t1 + 1440) / 1440 ≤ t2 / 1440 :=
    Nat.div_le_div_right (by omega)
  have h2 : (t1 + 1440) / 1440 = t1 / 1440 + 1 :=
    Nat.add_div_right t1 (by norm_num)
  omega

def stC4 : St :=
  ⟨stdSettings, [⟨7, "b", "Bob", 0, 0, none, false⟩], [], [], [], [], [], [], [], [], []⟩

/-- Claim C4, counterexample: a first claim at minute 1410 (23:30 of day 0)
succeeds, and a second claim at minute 1470 (00:30 of day 1), only 60
minutes later and well within 24 hours, also succeeds — two credits and no
AlreadyClaimed error, because the code compares calendar dates, not a
rolling 24-hour window. -/
theorem daily_bonus_two_credits_within_24h :
    (daily_bonus 7 1410 stC4).2 = .ok 10
    ∧ (daily_bonus 7 1470 (daily_bonus 7 1410 stC4).1).2 = .ok 10
    ∧ 1470 - 1410 < 1440
    ∧ getUser (daily_bonus 7 1470 (daily_bonus 7 1410 stC4).1).1 7
        = some ⟨7, "b", "Bob", 20, 0, none, false⟩ := by
  decide

/-- Claim C4 as amended: after a successful daily claim, a second claim on
the same calendar day fails AlreadyClaimed with no state change, and a
claim 24 hours or more after the first — necessarily on a later calendar
day — succeeds with the configured daily amount; the rate limit is per
calendar date, not per rolling 24-hour window, so two claims within 24
hours that straddle midnight both succeed. -/
theorem daily_bonus_per_calendar_day (s s1 : St) (uid : Int) (t1 : Nat) (a : Rat)
    (h1 : daily_bonus uid t1 s = (s1, .ok a)) :
    (∀ t2, dayOf t2 = dayOf t1 → daily_bonus uid t2 s1 = (s1, .error .alreadyClaimed))
    ∧ (∀ t2, 1440 + t1 ≤ t2 →
        (daily_bonus uid t2 s1).2 = .ok s.settings.daily_bonus_amount) := by
  unfold daily_bonus at h1
  split at h1
  · exact absurd h1 (by simp)
  · split at h1
    · exact absurd h1 (by simp)
    · rename_i hen hcl
      have hen2 : s.settings.daily_bonus_enabled = true := by
        by_cases hb : s.settings.daily_bonus_enabled = true
        · exact hb
        · exact absurd (by simp [hb]) hen
      injection h1 with h1a h1b
      constructor
      · intro t2 hday
        have hcl2 : dailyClaimedToday s1 uid t2 = true := by
          unfold dailyClaimedToday
          rw [← h1a]
          dsimp only
          rw [find?_upsertDay]
          simp [hday]
        have hens1 : s1.settings.daily_bonus_enabled = true := by
          rw [← h1a]; exact hen2
        unfold daily_bonus
        rw [hens1]
        simp [hcl2]
      · intro t2 ht
        have hne : ¬ dayOf t1 = dayOf t2 := by
          have := dayOf_lt_of_next t1 t2 ht
          omega
        have hcl2 : dailyClaimedToday s1 uid t2 = false := by
          unfold dailyClaimedToday
          rw [← h1a]
          dsimp only
          rw [find?_upsertDay]
          simpa using hne
        have hens1 : s1.settings.daily_bonus_enabled = true := by
          rw [← h1a]; exact hen2
        have hams1 : s1.settings.daily_bonus_amount = s.settings.daily_bonus_amount := by
          rw [← h1a]
        unfold daily_bonus
        rw [hens1]
        simp [hcl2, hams1]

/-- Witness for the amended claim C4: first claim at minute 100 of day 0;
a repeat at minute 200 (same day) is rejected, a repeat at minute 2000
(more than 24 hours later is impossible here, but 2000 is at least
1440 + 100 minutes after) is credited again. -/
theorem daily_bonus_per_calendar_day_witness :
    daily_bonus 7 200 (daily_bonus 7 100 stC4).1
      = ((daily_bonus 7 100 stC4).1, .error .alreadyClaimed)
    ∧ (daily_bonus 7 2000 (daily_bonus 7 100 stC4).1).2 = .ok 10 := by
  constructor
  · exact (daily_bonus_per_calendar_day stC4 (daily_bonus 7 100 stC4).1 7 100 10
      (by decide)).1 200 (by decide)
  · exact (daily_bonus_per_calendar_day stC4 (daily_bonus 7 100 stC4).1 7 100 10
      (by decide)).2 2000 (by decide)

theorem promoIncr_pred (code : String) :
    ((fun p => p.code == code) ∘
        (fun p => if p.code == code then { p with used_count := p.used_count + 1 } else p))
      = (fun p : PromoRow => p.code == code) := by
  funext p
  by_cases h : p.code == code
  · have hc : p.code = code := by simpa using h
    simp [hc]
  · have hc : ¬ p.code = code := by simpa using h
    simp [hc]

theorem find?_promoIncr_self (ps : List PromoRow) (code : String) (promo : PromoRow)
    (h : ps.find? (fun p => p.code == code) = some promo) :
    (ps.map (fun p => if p.code == code then { p with used_count := p.used_count + 1 } else p)).find?
        (fun p => p.code == code)
      = some { promo with used_count := promo.used_count + 1 } := by
  rw [List.find?_map, promoIncr_pred code, h]
  have hp := List.find?_some h
  have hp2 : promo.code = code := by simpa using hp
  simp [hp2]

/-- Claim C5: a promo with reward 5, maxUsage 1 and usedCount 0 credits the
first redeemer 5 and reaches usedCount 1, after which every further
redemption attempt (by any account) fails LimitReached without changing the
state; and a redemption never pushes the usedCount of a bounded promo above
its maxUsage. -/
theorem promo_limit_and_used_count_bound :
    (∀ (s : St) (uid1 : Int) (raw today : String) (promo : PromoRow) (u1 : UserRow),
      s.promos.find? (fun p => p.code == pyStrip raw) = some promo →
      promo.reward = 5 → promo.max_usage = 1 → promo.used_count = 0 →
      (promo.expiry_date != "" && pyStrLt promo.expiry_date today) = false →
      (s.promo_usage.find? (fun q => q.1 == uid1 && q.2 == pyStrip raw)).isSome = false →
      getUser s uid1 = some u1 →
      (redeem_promo_process uid1 raw today s).2 = .ok 5
      ∧ getUser (redeem_promo_process uid1 raw today s).1 uid1
          = some { u1 with balance := u1.balance + 5 }
      ∧ (∃ promo1, (redeem_promo_process uid1 raw today s).1.promos.find?
            (fun p => p.code == pyStrip raw) = some promo1
          ∧ promo1.used_count = 1 ∧ promo1.max_usage = 1)
      ∧ (∀ (uid2 : Int) (today2 : String),
          (promo.expiry_date != "" && pyStrLt promo.expiry_date today2) = false →
          redeem_promo_process uid2 raw today2 (redeem_promo_process uid1 raw today s).1
            = ((redeem_promo_process uid1 raw today s).1, .error .limitReached)))
    ∧ (∀ (s : St) (uid : Int) (raw today : String),
        (s.promos.map (fun p => p.code)).Nodup →
        (∀ p ∈ s.promos, p.max_usage ≠ -1 → p.used_count ≤ p.max_usage) →
        ∀ p' ∈ (redeem_promo_process uid raw today s).1.promos,
          p'.max_usage ≠ -1 → p'.used_count ≤ p'.max_usage) := by
  constructor
  · intro s uid1 raw today promo u1 hf hrw hmax huc hexp hnouse hu1
    have hstep : redeem_promo_process uid1 raw today s
        = ({ s with
              users := creditBalance s.users uid1 promo.reward,
              promos := s.promos.map (fun p =>
                if p.code == pyStrip raw then { p with used_count := p.used_count + 1 } else p),
              promo_usage := s.promo_usage ++ [(uid1, pyStrip raw)],
              transactions := s.transactions ++
                [⟨uid1, promo.reward, "promo", "Promo code " ++ pyStrip raw⟩] },
            .ok promo.reward) := by
      unfold redeem_promo_process
      dsimp only
      rw [hf]
      simp [hexp, hmax, huc, hnouse]
    refine ⟨?_, ?_, ?_, ?_⟩
    · rw [hstep, hrw]
    · rw [hstep]
      unfold getUser at hu1 ⊢
      dsimp only
      rw [hrw] at *
      exact find?_creditBalance_self s.users uid1 5 u1 hu1
    · rw [hstep]
      dsimp only
      refine ⟨{ promo with used_count := promo.used_count + 1 },
        find?_promoIncr_self s.promos (pyStrip raw) promo hf, ?_, ?_⟩
      · simp [huc]
      · simpa using hmax
    · intro uid2 today2 hexp2
      rw [hstep]
      unfold redeem_promo_process
      dsimp only
      rw [find?_promoIncr_self s.promos (pyStrip raw) promo hf]
      simp [hexp2, hmax, huc]
  · intro s uid raw today hnodup hbound
    unfold redeem_promo_process
    dsimp only
    cases hf : s.promos.find? (fun p => p.code == pyStrip raw) with
    | none => exact hbound
    | some promo =>
        dsimp only
        split
        · exact hbound
        · split
          · exact hbound
          · split
            · exact hbound
            · rename_i hexp hlim hused
              intro p' hp' hb'
              obtain ⟨p, hmem, rfl⟩ := List.mem_map.mp hp'
              by_cases hc : (p.code == pyStrip raw) = true
              · have hpc : p.code = pyStrip raw := by simpa using hc
                have hpromoc : promo.code = pyStrip raw := by
                  simpa using List.find?_some hf
                have hpp : p = promo :=
                  List.inj_on_of_nodup_map hnodup hmem
                    (List.mem_of_find?_eq_some hf) (by rw [hpc, hpromoc])
                rw [hpp] at hb' ⊢
                have hc2 : (promo.code == pyStrip raw) = true := by
                  simpa using hpromoc
                simp only [hc2, if_true] at hb' ⊢
                have hnm : promo.max_usage ≠ -1 := by simpa using hb'
                have hlt : promo.used_count < promo.max_usage := by
                  by_cases hle : promo.max_usage ≤ promo.used_count
                  · exfalso
                    apply hlim
                    have h1 : (promo.max_usage != -1) = true := by simpa using hnm
                    simp [h1, hle]
                  · omega
                show promo.used_count + 1 ≤ promo.max_usage
                omega
              · simp only [hc, Bool.false_eq_true, if_false] at hb' ⊢
                exact hbound p hmem hb'

def stW5 : St :=
  ⟨stdSettings, [⟨1, "a", "Alice", 0, 0, none, false⟩, ⟨2, "b", "Bert", 3, 0, none, false⟩],
    [], [], [], [], [⟨"WELCOME5", 5, 1, 0, "2099-01-01"⟩], [],
    [⟨2, 3, "task", "seed"⟩], [], []⟩

/-- Witness for claim C5 at a concrete promo WELCOME5 with reward 5 and
maxUsage 1, redeemed first by account 1 and then attempted by account 2. -/
theorem promo_limit_and_used_count_bound_witness :
    ((redeem_promo_process 1 "WELCOME5" "2024-06-01" stW5).2 = .ok 5
      ∧ getUser (redeem_promo_process 1 "WELCOME5" "2024-06-01" stW5).1 1
          = some ⟨1, "a", "Alice", 5, 0, none, false⟩
      ∧ redeem_promo_process 2 "WELCOME5" "2024-06-02"
            (redeem_promo_process 1 "WELCOME5" "2024-06-01" stW5).1
          = ((redeem_promo_process 1 "WELCOME5" "2024-06-01" stW5).1, .error .limitReached))
    ∧ (∀ p' ∈ (redeem_promo_process 1 "WELCOME5" "2024-06-01" stW5).1.promos,
        p'.max_usage ≠ -1 → p'.used_count ≤ p'.max_usage) := by
  constructor
  · have h := promo_limit_and_used_count_bound.1 stW5 1 "WELCOME5" "2024-06-01"
      ⟨"WELCOME5", 5, 1, 0, "2099-01-01"⟩ ⟨1, "a", "Alice", 0, 0, none, false⟩
      (by decide) (by decide) (by decide) (by decide) (by decide) (by decide) (by decide)
    exact ⟨h.1, h.2.1, h.2.2.2 2 "2024-06-02" (by decide)⟩
  · exact promo_limit_and_used_count_bound.2 stW5 1 "WELCOME5" "2024-06-01"
      (by decide) (by decide)

theorem find?_append_some {α : Type} {l1 l2 : List α} {p : α → Bool} {a : α}
    (h : l1.find? p = some a) : (l1 ++ l2).find? p = some a := by
  rw [List.find?_append, h]
  rfl

theorem cmd_start_existing (uid : Int) (un fn : String) (arg : Option Nat) (s : St)
    (h : (getUser s uid).isSome = true) : cmd_start uid un fn arg s = s := by
  unfold cmd_start add_user
  simp [h]

def stInit : St := ⟨stdSettings, [], [], [], [], [], [], [], [], [], []⟩

/-- Claim C6, counterexample: a referrer account with user id 0 — created by
the signup flow itself — exists and is distinct from the new account 5, the
configured referral reward is 5, yet the signup of account 5 with referrer 0
credits nothing and records no transaction, because the Python truthiness
test if referrer_id is false for 0. -/
theorem referral_zero_id_no_credit :
    (getUser (applyOps stInit [Op.start 0 "z" "Zed" none]) 0).isSome = true
    ∧ stInit.settings.referral_reward = 5
    ∧ (applyOps stInit
        [Op.start 0 "z" "Zed" none, Op.start 5 "n" "Newbie" (some 0)]).transactions = []
    ∧ getUser (applyOps stInit
          [Op.start 0 "z" "Zed" none, Op.start 5 "n" "Newbie" (some 0)]) 0
        = some ⟨0, "z", "Zed", 0, 0, none, false⟩ := by
  decide

/-- Claim C6 as amended: when a new account signs up with an existing
referrer that is distinct from it and has a nonzero id, the referrer is
credited the configured referral amount with exactly one referral
transaction row, and any repetition of the signup flow by the new account
changes nothing further; a referrer with id 0 is silently skipped by the
truthiness test. -/
theorem referral_credit_exactly_once_nonzero (s : St) (uid : Int) (un fn : String)
    (r : Nat) (u : UserRow)
    (hr0 : (r : Int) ≠ 0)
    (hne : (r : Int) ≠ uid)
    (hreg : getUser s (r : Int) = some u)
    (hnew : getUser s uid = none) :
    (cmd_start uid un fn (some r) s).transactions
        = s.transactions ++ [⟨(r : Int), s.settings.referral_reward, "referral",
            "Referral bonus from " ++ fn⟩]
    ∧ getUser (cmd_start uid un fn (some r) s) (r : Int)
        = some { u with balance := u.balance + s.settings.referral_reward }
    ∧ ∀ (un2 fn2 : String) (arg2 : Option Nat),
        cmd_start uid un2 fn2 arg2 (cmd_start uid un fn (some r) s)
          = cmd_start uid un fn (some r) s := by
  have hiss : (getUser s (r : Int)).isSome = true := by rw [hreg]; rfl
  have hc : (((r : Int) != uid) && (getUser s (r : Int)).isSome) = true := by
    simp [hne, hiss]
  have hnew2 : (getUser s uid).isSome = false := by rw [hnew]; rfl
  have h0 : ((r : Int) == 0) = false := by simpa using hr0
  have hstep : cmd_start uid un fn (some r) s
      = { s with
            users := creditBalance
              (s.users ++ [⟨uid, un, fn, 0, 0, some (r : Int), false⟩])
              (r : Int) s.settings.referral_reward,
            transactions := s.transactions ++
              [⟨(r : Int), s.settings.referral_reward, "referral",
                "Referral bonus from " ++ fn⟩] } := by
    unfold cmd_start add_user
    dsimp only
    simp only [hc, if_true, hnew2, Bool.false_eq_true, if_false, h0]
  have hfindr : (s.users ++ ([⟨uid, un, fn, 0, 0, some (r : Int), false⟩] : List UserRow)).find?
      (fun v => v.user_id == (r : Int)) = some u := by
    apply find?_append_some
    exact hreg
  refine ⟨by rw [hstep], ?_, ?_⟩
  · rw [hstep]
    unfold getUser
    dsimp only
    exact find?_creditBalance_self _ (r : Int) s.settings.referral_reward u hfindr
  · intro un2 fn2 arg2
    apply cmd_start_existing
    rw [hstep]
    unfold getUser
    dsimp only
    rw [find?_creditBalance_isSome, List.find?_append]
    unfold getUser at hnew
    rw [hnew]
    simp

def stW6 : St :=
  ⟨stdSettings, [⟨3, "r", "Rita", 2, 0, none, false⟩], [], [], [], [], [], [], [], [], []⟩

/-- Witness for the amended claim C6: account 9 signs up with existing
referrer 3; Rita is credited 5 exactly once and a repeated /start changes
nothing. -/
theorem referral_credit_exactly_once_nonzero_witness :
    (cmd_start 9 "n" "Ned" (some 3) stW6).transactions
        = stW6.transactions ++ [⟨3, 5, "referral", "Referral bonus from Ned"⟩]
    ∧ getUser (cmd_start 9 "n" "Ned" (some 3) stW6) ((3 : Nat) : Int)
        = some ⟨3, "r", "Rita", 7, 0, none, false⟩
    ∧ cmd_start 9 "x" "Again" none (cmd_start 9 "n" "Ned" (some 3) stW6)
        = cmd_start 9 "n" "Ned" (some 3) stW6 := by
  have h := referral_credit_exactly_once_nonzero stW6 9 "n" "Ned" 3
    ⟨3, "r", "Rita", 2, 0, none, false⟩ (by decide) (by decide) (by decide) (by decide)
  refine ⟨?_, ?_, h.2.2 "x" "Again" none⟩
  · rw [h.1]
    decide
  · rw [h.2.1]
    decide

theorem buy_product_never_banned (uid pid : Int) (s : St) :
    (buy_product uid pid s).2 ≠ .error .bannedUser := by
  unfold buy_product process_purchase
  cases findProduct s pid with
  | none => simp
  | some prod =>
      dsimp only
      split
      · simp
      · cases getUser s uid with
        | none => simp
        | some user =>
            dsimp only
            split
            · simp
            · split
              · simp
              · simp [Except.map]

def stC7 : St :=
  ⟨stdSettings, [⟨7, "u", "Ursula", 10, 0, none, true⟩],
    [⟨1, 1, "digital", "Key", "a key", 10, "XYZ", 1⟩], [], [], [], [], [], [], [], []⟩

/-- Claim C7, counterexample: account 7 is banned, has funds and attempts to
buy an in-stock product; the attempt fails with the NameError of
process_purchase, not with a Banned rejection — buy_product never consults
the banned flag. -/
theorem banned_purchase_not_banned_error :
    getUser stC7 7 = some ⟨7, "u", "Ursula", 10, 0, none, true⟩
    ∧ buy_product 7 1 stC7 = (stC7, .error .nameErrorUser)
    ∧ (buy_product 7 1 stC7).2 ≠ .error .bannedUser := by
  decide

/-- Claim C7 as amended: a purchase attempt by a banned account performs no
mutation, but it is never rejected with Banned: the banned flag is not
consulted by the purchase path, which fails or defers for the same reasons
as for any other account. -/
theorem purchase_ignores_banned_flag (s : St) (uid pid : Int) (u : UserRow)
    (hu : getUser s uid = some u) (hb : u.banned = true) :
    (buy_product uid pid s).1 = s ∧ (buy_product uid pid s).2 ≠ .error .bannedUser :=
  ⟨buy_product_fst uid pid s, buy_product_never_banned uid pid s⟩

/-- Witness for the amended claim C7 at the banned account of stC7. -/
theorem purchase_ignores_banned_flag_witness :
    (buy_product 7 1 stC7).1 = stC7 ∧ (buy_product 7 1 stC7).2 ≠ .error .bannedUser :=
  purchase_ignores_banned_flag stC7 7 1 ⟨7, "u", "Ursula", 10, 0, none, true⟩
    (by decide) rfl

/-- Claim C8: every failing promo redemption — unknown code, expired code,
usage limit reached, prior usage by the same account — returns before any
write, leaving balances, promo usage rows, usedCount and the transaction
log unchanged: the whole state is returned exactly as it was. -/
theorem promo_failure_leaves_state_unchanged (s : St) (uid : Int) (raw today : String)
    (e : Err) :
    (redeem_promo_process uid raw today s).2 = .error e →
    (redeem_promo_process uid raw today s).1 = s := by
  unfold redeem_promo_process
  dsimp only
  split
  · intro _; rfl
  · split
    · intro _; rfl
    · split
      · intro _; rfl
      · split
        · intro _; rfl
        · intro h; exact absurd h (by simp)

def stW8 : St :=
  ⟨stdSettings, [⟨4, "d", "Dora", 1, 0, none, false⟩], [], [], [], [],
    [⟨"OLD", 2, -1, 0, "2020-01-01"⟩], [], [], [], []⟩

/-- Witness for claim C8: an expired code is rejected and the state is
returned unchanged. -/
theorem promo_failure_leaves_state_unchanged_witness :
    (redeem_promo_process 4 "OLD" "2024-06-01" stW8).1 = stW8 :=
  promo_failure_leaves_state_unchanged stW8 4 "OLD" "2024-06-01" Err.codeExpired (by decide)

/-- Claim C10: with the scratch feature enabled and no claim today, an
unparsable scratch_rewards setting makes the handler draw from the fallback
list 5, 10, 15, 20, 25 instead of failing, and a parseable but empty list
makes it fail with no mutation at all. -/
theorem scratch_fallback_and_empty_rewards (s : St) (uid : Int) (t k : Nat)
    (hen : s.settings.scratch_enabled = true)
    (hnc : scratchClaimedToday s uid t = false) :
    (parseScratchRewards s.settings.scratch_rewards = none →
      (scratch_card uid t k s).2 = .ok ([5, 10, 15, 20, 25].getD (k % 5) (0 : Rat)))
    ∧ (parseScratchRewards s.settings.scratch_rewards = some [] →
      scratch_card uid t k s = (s, .error .noScratchRewards)) := by
  constructor
  · intro hparse
    unfold scratch_card
    simp [hen, hnc, hparse]
  · intro hparse
    unfold scratch_card
    simp [hen, hnc, hparse]

def stW10a : St :=
  ⟨⟨5, true, 10, true, "abc"⟩, [⟨7, "b", "Bob", 0, 0, none, false⟩],
    [], [], [], [], [], [], [], [], []⟩

def stW10b : St :=
  ⟨⟨5, true, 10, true, ""⟩, [⟨7, "b", "Bob", 0, 0, none, false⟩],
    [], [], [], [], [], [], [], [], []⟩

/-- Witness for claim C10: the setting abc is unparsable, so index 3 draws
20 from the fallback list; the empty setting parses to an empty list and
the handler fails with no state change. -/
theorem scratch_fallback_and_empty_rewards_witness :
    (scratch_card 7 100 3 stW10a).2 = .ok 20
    ∧ scratch_card 7 100 3 stW10b = (stW10b, .error .noScratchRewards) := by
  constructor
  · have h := (scratch_fallback_and_empty_rewards stW10a 7 100 3 (by decide) (by decide)).1
      (by decide)
    rw [h]
    decide
  · exact (scratch_fallback_and_empty_rewards stW10b 7 100 3 (by decide) (by decide)).2
      (by decide)
